import Mathlib

/-!
# Serpents-per-second: verification of the simulation core

A shallow embedding, in Lean 4, of the simulation core of the
grid-based Snake game (sources under `src/`): grid geometry and
collision resolution (`src/game/collision.py`), snake movement and
growth (`src/game/snake.py`), food spawning and animation
(`src/game/food.py`), the fixed-timestep timing engine
(`src/systems/timing.py`), input arbitration (`src/systems/input.py`),
the play-scene orchestrator (`src/scenes/play.py`), and the high-score
table (`src/systems/saves.py`).

Modelling conventions:
* grid positions are pairs of integers (`Int × Int`); Python's `%` on
  `int` with a positive modulus agrees with `Int.emod`;
* Python `float` time values are modelled as exact rationals (`ℚ`);
  the claims under scrutiny are about the algorithmic structure of the
  accumulator loops, not about rounding;
* Python sets of positions are modelled as lists with membership
  semantics (the code only tests membership, emptiness and iteration);
* the injected random source (`random.Random`) is modelled by a natural
  number reduced modulo the length of the candidate list: every
  possible draw of `Random.choice` is some such index;
* external side effects (audio playback, scene transition, logging,
  file I/O from the persistence layer) do not touch the simulated
  state and are omitted.
-/

/-! ## Grid constants (`src/constants.py`) -/

/-- `GRID_WIDTH = INTERNAL_WIDTH // TILE_SIZE = 16` (`src/constants.py`). -/
def GRID_WIDTH : Int := 16

/-- `GRID_HEIGHT = INTERNAL_HEIGHT // TILE_SIZE = 14` (`src/constants.py`). -/
def GRID_HEIGHT : Int := 14

/-- `INITIAL_TICKS_PER_SECOND = 8.0` (`src/constants.py`). -/
def INITIAL_TICKS_PER_SECOND : ℚ := 8

/-- `SPEED_INCREMENT = 0.25` (`src/constants.py`). -/
def SPEED_INCREMENT : ℚ := 1/4

/-- `MAX_TICKS_PER_SECOND = 14.0` (`src/constants.py`). -/
def MAX_TICKS_PER_SECOND : ℚ := 14

/-- `FOOD_ANIMATION_INTERVAL = 0.25` (`src/constants.py`). -/
def FOOD_ANIMATION_INTERVAL : ℚ := 1/4

/-- `TIME_ATTACK_DURATION = 120.0` (`src/constants.py`). -/
def TIME_ATTACK_DURATION : ℚ := 120

/-- `SCORE_PER_FOOD = 10` (`src/constants.py`). -/
def SCORE_PER_FOOD : Nat := 10

/-- `TIME_ATTACK_SCORE_PER_SECOND = 1` (`src/constants.py`). -/
def TIME_ATTACK_SCORE_PER_SECOND : Nat := 1

/-- `MAX_HIGHSCORES = 10` (`src/constants.py`). -/
def MAX_HIGHSCORES : Nat := 10

/-- A grid position: the `(x, y)` integer pairs used throughout the code. -/
abbrev Pos := Int × Int

/-- `Direction` enum (`src/constants.py`). -/
inductive Direction where
  | up
  | down
  | left
  | right
deriving DecidableEq, Repr

/-- `DIRECTION_VECTORS` lookup table (`src/constants.py`). -/
def DIRECTION_VECTORS : Direction → Int × Int
  | Direction.up => (0, -1)
  | Direction.down => (0, 1)
  | Direction.left => (-1, 0)
  | Direction.right => (1, 0)

/-- `OPPOSITE_DIRECTIONS` lookup table (`src/constants.py`). -/
def OPPOSITE_DIRECTIONS : Direction → Direction
  | Direction.up => Direction.down
  | Direction.down => Direction.up
  | Direction.left => Direction.right
  | Direction.right => Direction.left

/-- `EndReason` enum (`src/constants.py`). -/
inductive EndReason where
  | self_collision
  | wall_collision
  | time_up
  | victory
deriving DecidableEq, Repr

/-! ## Collision detection (`src/game/collision.py`) -/

/-- `check_self_collision(head, body)`: `head in body`. -/
def check_self_collision (head : Pos) (body : List Pos) : Bool :=
  decide (head ∈ body)

/-- `check_border_collision(head)`:
`x < 0 or x >= GRID_WIDTH or y < 0 or y >= GRID_HEIGHT`. -/
def check_border_collision (head : Pos) : Bool :=
  decide (head.1 < 0) || decide (GRID_WIDTH ≤ head.1) ||
    decide (head.2 < 0) || decide (GRID_HEIGHT ≤ head.2)

/-- `check_wall_collision(head, walls)`: `head in walls`. -/
def check_wall_collision (head : Pos) (walls : List Pos) : Bool :=
  decide (head ∈ walls)

/-- `check_collisions(head, body, border_lethal, walls)`: the fixed-priority
collision resolver.  `walls` is `None` or a set of positions; the Python guard
`if walls` is true exactly when a non-empty set was supplied. -/
def check_collisions (head : Pos) (body : List Pos) (border_lethal : Bool)
    (walls : Option (List Pos)) : Option EndReason :=
  if check_self_collision head body then some EndReason.self_collision
  else if border_lethal && check_border_collision head then
    some EndReason.wall_collision
  else if (match walls with
           | some ws => !ws.isEmpty && check_wall_collision head ws
           | none => false) then
    some EndReason.wall_collision
  else none

/-- C1: `check_collisions` evaluates in a fixed priority order and returns the
first match: `SelfCollision` iff the head is a member of the body (checked
first); otherwise `WallCollision` when `border_lethal` holds and the head lies
outside `[0,16)×[0,14)`; otherwise `WallCollision` when a non-empty wall set
was supplied and the head is a member of it; otherwise `none`.  In particular,
when `border_lethal` is false an out-of-bounds head with no self-collision and
no wall set yields `none`. -/
theorem C1_check_collisions_priority (head : Pos) (body : List Pos)
    (border_lethal : Bool) (walls : Option (List Pos)) :
    (check_collisions head body border_lethal walls =
        some EndReason.self_collision ↔ head ∈ body) ∧
    (head ∉ body → border_lethal = true →
      (head.1 < 0 ∨ 16 ≤ head.1 ∨ head.2 < 0 ∨ 14 ≤ head.2) →
      check_collisions head body border_lethal walls =
        some EndReason.wall_collision) ∧
    (head ∉ body →
      ¬(border_lethal = true ∧
          (head.1 < 0 ∨ 16 ≤ head.1 ∨ head.2 < 0 ∨ 14 ≤ head.2)) →
      ∀ ws, walls = some ws → ws ≠ [] → head ∈ ws →
      check_collisions head body border_lethal walls =
        some EndReason.wall_collision) ∧
    (head ∉ body →
      ¬(border_lethal = true ∧
          (head.1 < 0 ∨ 16 ≤ head.1 ∨ head.2 < 0 ∨ 14 ≤ head.2)) →
      (¬∃ ws, walls = some ws ∧ ws ≠ [] ∧ head ∈ ws) →
      check_collisions head body border_lethal walls = none) ∧
    (border_lethal = false → head ∉ body → walls = none →
      check_collisions head body border_lethal walls = none) := by
  have hborder : check_border_collision head = true ↔
      (head.1 < 0 ∨ 16 ≤ head.1 ∨ head.2 < 0 ∨ 14 ≤ head.2) := by
    simp [check_border_collision, GRID_WIDTH, GRID_HEIGHT, or_assoc]
  have hcc : check_collisions head body border_lethal walls =
      if head ∈ body then some EndReason.self_collision
      else if (border_lethal && check_border_collision head) = true then
        some EndReason.wall_collision
      else if (match walls with
               | some ws => !ws.isEmpty && check_wall_collision head ws
               | none => false) = true then
        some EndReason.wall_collision
      else none := by
    unfold check_collisions check_self_collision
    by_cases hmem : head ∈ body <;> simp [hmem]
  refine ⟨?_, ?_, ?_, ?_, ?_⟩
  · constructor
    · intro h
      by_contra hmem
      rw [hcc, if_neg hmem] at h
      split at h
      · simp at h
      · split at h <;> simp at h
    · intro hmem
      rw [hcc, if_pos hmem]
  · intro hmem hbl hout
    rw [hcc, if_neg hmem, if_pos (by simp [hbl, hborder.mpr hout])]
  · intro hmem hnb ws hws hne hmemw
    have hb : ¬((border_lethal && check_border_collision head) = true) := by
      intro hband
      rcases (Bool.and_eq_true _ _).mp hband with ⟨h1, h2⟩
      exact hnb ⟨h1, hborder.mp h2⟩
    subst hws
    rw [hcc, if_neg hmem, if_neg hb, if_pos]
    simp [check_wall_collision, List.isEmpty_iff, hne, hmemw]
  · intro hmem hnb hnw
    have hb : ¬((border_lethal && check_border_collision head) = true) := by
      intro hband
      rcases (Bool.and_eq_true _ _).mp hband with ⟨h1, h2⟩
      exact hnb ⟨h1, hborder.mp h2⟩
    rcases walls with _ | ws
    · rw [hcc, if_neg hmem, if_neg hb]
      simp
    · have hx : ¬(ws ≠ [] ∧ head ∈ ws) := fun hx => hnw ⟨ws, rfl, hx.1, hx.2⟩
      rw [hcc, if_neg hmem, if_neg hb, if_neg]
      simp only [check_wall_collision, List.isEmpty_iff, Bool.and_eq_true,
        Bool.not_eq_true', decide_eq_true_eq]
      intro h1
      exact hx ⟨by simpa using h1.1, h1.2⟩
  · intro hbl hmem hw
    subst hbl hw
    rw [hcc, if_neg hmem]
    simp

/-- C1 witness: the theorem applied at the spec's example input
`head = (-1, 5)`, empty body, `border_lethal = false`, no walls. -/
theorem C1_witness :
    check_collisions (-1, 5) [] false none = none :=
  (C1_check_collisions_priority (-1, 5) [] false none).2.2.2.2
    rfl (by simp) rfl

/-! ## Snake (`src/game/snake.py`) -/

/-- The `Snake` class state: ordered segment list (head at index 0), current
direction, and the pending-growth flag. -/
structure Snake where
  segments : List Pos
  direction : Direction
  grow_pending : Bool
deriving DecidableEq, Repr

/-- `Snake.head` property: `segments[0]` (the Python code indexes an assumed
non-empty list; `headI` returns the default `(0, 0)` on the empty list, which
the claims exclude by hypothesis). -/
def Snake.head (s : Snake) : Pos :=
  s.segments.headI

/-- `Snake.body` property: `segments[1:]`. -/
def Snake.body (s : Snake) : List Pos :=
  s.segments.drop 1

/-- `Snake.get_next_head(wrap)`: head plus the direction vector, coordinates
taken modulo the grid dimensions when `wrap` holds (Python `%` on a positive
modulus = `Int.emod`). -/
def Snake.get_next_head (s : Snake) (wrap : Bool) : Pos :=
  let v := DIRECTION_VECTORS s.direction
  let new_x := s.head.1 + v.1
  let new_y := s.head.2 + v.2
  if wrap then (new_x % GRID_WIDTH, new_y % GRID_HEIGHT) else (new_x, new_y)

/-- `Snake.move(wrap)`: insert the next head at index 0; if growth is pending
clear the flag, otherwise pop the tail.  Returns the new head position with
the updated snake. -/
def Snake.move (s : Snake) (wrap : Bool) : Pos × Snake :=
  let new_head := s.get_next_head wrap
  let segs := new_head :: s.segments
  if s.grow_pending then
    (new_head, { s with segments := segs, grow_pending := false })
  else
    (new_head, { s with segments := segs.dropLast })

/-- `Snake.grow()`: set the pending-growth flag. -/
def Snake.grow (s : Snake) : Snake :=
  { s with grow_pending := true }

/-- C2: for a snake with at least one segment, `move(wrap)` inserts the
position computed by `get_next_head(wrap)` at index 0; if `grow_pending` was
set it clears the flag and keeps the whole previous segment list (so the
length grows by exactly 1 and the tail is kept); otherwise it removes the
last segment (length unchanged); in both cases it returns the new head.
`grow()` only sets the pending flag and modifies no segments, and its effect
is realized on the next `move` (length then grows by 1). -/
theorem C2_move_and_grow (s : Snake) (wrap : Bool) (hne : s.segments ≠ []) :
    ((s.move wrap).1 = s.get_next_head wrap ∧
     (s.move wrap).2.segments.head? = some (s.move wrap).1 ∧
     (s.move wrap).2.direction = s.direction ∧
     (s.grow_pending = true →
       (s.move wrap).2.grow_pending = false ∧
       (s.move wrap).2.segments = (s.move wrap).1 :: s.segments ∧
       (s.move wrap).2.segments.length = s.segments.length + 1 ∧
       (s.move wrap).2.segments.getLast? = s.segments.getLast?) ∧
     (s.grow_pending = false →
       (s.move wrap).2.grow_pending = false ∧
       (s.move wrap).2.segments = (s.move wrap).1 :: s.segments.dropLast ∧
       (s.move wrap).2.segments.length = s.segments.length)) ∧
    (s.grow.segments = s.segments ∧
     s.grow.direction = s.direction ∧
     s.grow.grow_pending = true ∧
     ((s.grow.move wrap).2.segments.length = s.segments.length + 1)) := by
  rcases s with ⟨segs, dir, pend⟩
  have hne' : segs ≠ [] := hne
  have hlen := List.length_pos.mpr hne'
  cases pend
  · have hmv : Snake.move ⟨segs, dir, false⟩ wrap =
        (Snake.get_next_head ⟨segs, dir, false⟩ wrap,
         ⟨Snake.get_next_head ⟨segs, dir, false⟩ wrap :: segs.dropLast,
          dir, false⟩) := by
      simp [Snake.move, List.dropLast_cons_of_ne_nil hne']
    refine ⟨⟨by rw [hmv], by rw [hmv]; rfl, by rw [hmv], by simp,
      fun _ => ⟨by rw [hmv], by rw [hmv], ?_⟩⟩, rfl, rfl, rfl, ?_⟩
    · rw [hmv]
      simp only [List.length_cons, List.length_dropLast]
      omega
    · simp [Snake.grow, Snake.move]
  · have hmv : Snake.move ⟨segs, dir, true⟩ wrap =
        (Snake.get_next_head ⟨segs, dir, true⟩ wrap,
         ⟨Snake.get_next_head ⟨segs, dir, true⟩ wrap :: segs, dir, false⟩) := by
      simp [Snake.move]
    refine ⟨⟨by rw [hmv], by rw [hmv]; rfl, by rw [hmv],
      fun _ => ⟨by rw [hmv], by rw [hmv], by rw [hmv]; simp, ?_⟩, by simp⟩,
      rfl, rfl, rfl, by simp [Snake.grow, Snake.move]⟩
    rw [hmv]
    rcases segs with _ | ⟨a, t⟩
    · exact absurd rfl hne'
    · exact List.getLast?_cons_cons

/-- C2 witness: the theorem applied to the initial snake
`[(3,7), (2,7), (1,7)]` (no growth pending): a move keeps the length at 3. -/
theorem C2_witness :
    ((Snake.mk [(3, 7), (2, 7), (1, 7)] Direction.right false).move
        false).2.segments.length =
      (Snake.mk [(3, 7), (2, 7), (1, 7)] Direction.right false).segments.length :=
  ((C2_move_and_grow (Snake.mk [(3, 7), (2, 7), (1, 7)] Direction.right false)
      false (by simp)).1.2.2.2.2 rfl).2.2

/-! ## Timing engine (`src/systems/timing.py`) -/

/-- The `TimingSystem` class state. -/
structure TimingSystem where
  ticks_per_second : ℚ
  tick_accumulator : ℚ
  elapsed_time : ℚ
  time_remaining : ℚ
  paused : Bool
  last_scored_second : Int
deriving DecidableEq, Repr

/-- `TimingSystem.get_tick_interval()`: `1.0 / ticks_per_second`. -/
def TimingSystem.get_tick_interval (t : TimingSystem) : ℚ :=
  1 / t.ticks_per_second

/-- The `while self.tick_accumulator >= tick_interval` loop of
`TimingSystem.update`: repeatedly subtract `interval` from `acc`, counting the
subtractions; returns the count and the final accumulator.  The `0 < interval`
guard makes the function total — the Python loop does not terminate when the
interval is non-positive, and the rates the program uses lie in `[8, 14]`. -/
def tick_while_loop (acc interval : ℚ) : Nat × ℚ :=
  if h : 0 < interval ∧ interval ≤ acc then
    let r := tick_while_loop (acc - interval) interval
    (r.1 + 1, r.2)
  else
    (0, acc)
termination_by (⌊acc / interval⌋).toNat
decreasing_by
  have h1 : (1 : ℚ) ≤ acc / interval := (le_div_iff₀ h.1).mpr (by linarith [h.2])
  have h2 : (acc - interval) / interval = acc / interval - 1 := by
    rw [sub_div, div_self (ne_of_gt h.1)]
  rw [h2]
  have h3 : ⌊acc / interval - (1 : ℚ)⌋ = ⌊acc / interval⌋ - 1 := by
    rw [← Int.floor_sub_int (acc / interval) 1]
    norm_num
  have h4 : (1 : ℤ) ≤ ⌊acc / interval⌋ := by
    exact_mod_cast Int.le_floor.mpr (by exact_mod_cast h1)
  rw [h3]
  omega

/-- `TimingSystem.update(dt)`: return 0 at once when paused; otherwise add
`dt` to `elapsed_time` and to the accumulator, then run the subtraction loop
at the interval read once from the current rate. -/
def TimingSystem.update (t : TimingSystem) (dt : ℚ) : Nat × TimingSystem :=
  if t.paused then (0, t)
  else
    let elapsed := t.elapsed_time + dt
    let acc := t.tick_accumulator + dt
    let tick_interval := t.get_tick_interval
    let r := tick_while_loop acc tick_interval
    (r.1, { t with elapsed_time := elapsed, tick_accumulator := r.2 })

/-- `TimingSystem.increase_speed()`:
`ticks_per_second = min(ticks_per_second + SPEED_INCREMENT, MAX_TICKS_PER_SECOND)`. -/
def TimingSystem.increase_speed (t : TimingSystem) : TimingSystem :=
  let tps := min (t.ticks_per_second + SPEED_INCREMENT) MAX_TICKS_PER_SECOND
  { t with ticks_per_second := tps }

/-- `TimingSystem.update_time_attack(dt)`: when paused return false without
changes; otherwise subtract `dt` from `time_remaining` and report whether the
result is `≤ 0`. -/
def TimingSystem.update_time_attack (t : TimingSystem) (dt : ℚ) :
    Bool × TimingSystem :=
  if t.paused then (false, t)
  else
    let tr := t.time_remaining - dt
    (decide (tr ≤ 0), { t with time_remaining := tr })

/-- Python `int()` truncates toward zero; `elapsed_time` is non-negative in
every reachable state, where truncation agrees with `Int.floor`. -/
def py_trunc (q : ℚ) : Int :=
  if 0 ≤ q then ⌊q⌋ else ⌈q⌉

/-- `TimingSystem.check_second_scored()`: compare `int(elapsed_time)` with
`_last_scored_second`; on a strict increase, record and report it. -/
def TimingSystem.check_second_scored (t : TimingSystem) : Bool × TimingSystem :=
  let current_second := py_trunc t.elapsed_time
  if t.last_scored_second < current_second then
    (true, { t with last_scored_second := current_second })
  else
    (false, t)

/-- Loop invariant of `tick_while_loop`: for a positive interval and a
non-negative starting accumulator, the loop returns the unique count `n` and
remainder `r` with `r = acc - n * interval` and `0 ≤ r < interval` — i.e. it
counts how many times the interval can be subtracted while the accumulator
stays at or above it, and leaves the sub-interval remainder. -/
theorem tick_while_loop_spec : ∀ (acc interval : ℚ), 0 < interval → 0 ≤ acc →
    (tick_while_loop acc interval).2 =
        acc - (tick_while_loop acc interval).1 * interval ∧
      0 ≤ (tick_while_loop acc interval).2 ∧
      (tick_while_loop acc interval).2 < interval := by
  intro acc interval
  induction acc, interval using tick_while_loop.induct with
  | case1 acc interval h ih =>
    intro hI ha
    have hrec := ih hI (by linarith [h.2])
    rw [tick_while_loop.eq_def]
    simp only [dif_pos h]
    refine ⟨?_, hrec.2.1, hrec.2.2⟩
    rw [hrec.1]
    push_cast
    ring
  | case2 acc interval h =>
    intro hI ha
    have hlt : acc < interval := by
      rcases not_and_or.mp h with h1 | h1
      · exact absurd hI h1
      · exact not_le.mp h1
    rw [tick_while_loop.eq_def]
    simp only [dif_neg h]
    exact ⟨by simp, ha, hlt⟩

/-- C3: when paused, `update(dt)` returns 0 and changes nothing; otherwise it
adds `dt` to both `elapsed_time` and the accumulator and returns the number
of times the interval `1 / ticks_per_second` — fixed at the rate in effect
when `update` was invoked — can be subtracted from the accumulator while the
accumulator stays `≥` the interval, leaving the sub-interval remainder
(`0 ≤ remainder < interval`) in the accumulator. -/
theorem C3_timing_update (t : TimingSystem) (dt : ℚ) :
    (t.paused = true → t.update dt = (0, t)) ∧
    (t.paused = false → 0 < t.ticks_per_second →
      0 ≤ t.tick_accumulator + dt →
      (t.update dt).2.elapsed_time = t.elapsed_time + dt ∧
      (t.update dt).2.ticks_per_second = t.ticks_per_second ∧
      (t.update dt).2.paused = false ∧
      (t.update dt).2.time_remaining = t.time_remaining ∧
      (t.update dt).2.last_scored_second = t.last_scored_second ∧
      (t.update dt).2.tick_accumulator =
        (t.tick_accumulator + dt) -
          (t.update dt).1 * (1 / t.ticks_per_second) ∧
      0 ≤ (t.update dt).2.tick_accumulator ∧
      (t.update dt).2.tick_accumulator < 1 / t.ticks_per_second) := by
  constructor
  · intro hp
    simp [TimingSystem.update, hp]
  · intro hp htps hacc
    have hI : 0 < (1 : ℚ) / t.ticks_per_second := by positivity
    have hspec := tick_while_loop_spec (t.tick_accumulator + dt)
      (1 / t.ticks_per_second) hI hacc
    have hupd : t.update dt =
        ((tick_while_loop (t.tick_accumulator + dt) (1 / t.ticks_per_second)).1,
         { t with
            elapsed_time := t.elapsed_time + dt,
            tick_accumulator :=
              (tick_while_loop (t.tick_accumulator + dt)
                (1 / t.ticks_per_second)).2 }) := by
      simp [TimingSystem.update, hp, TimingSystem.get_tick_interval]
    rw [hupd]
    exact ⟨rfl, rfl, hp, rfl, rfl, hspec.1, hspec.2.1, hspec.2.2⟩

/-- C3 witness: the theorem applied at the initial rate 8 with `dt = 3/10`
from a zero accumulator (not paused). -/
theorem C3_witness :
    ((TimingSystem.mk 8 0 0 0 false 0).update (3/10)).2.tick_accumulator =
        (0 + 3/10 : ℚ) -
          ((TimingSystem.mk 8 0 0 0 false 0).update (3/10)).1 * (1 / 8) ∧
      0 ≤ ((TimingSystem.mk 8 0 0 0 false 0).update (3/10)).2.tick_accumulator ∧
      ((TimingSystem.mk 8 0 0 0 false 0).update (3/10)).2.tick_accumulator <
        1 / 8 := by
  have h := (C3_timing_update (TimingSystem.mk 8 0 0 0 false 0) (3/10)).2
    rfl (by norm_num) (by norm_num)
  exact ⟨h.2.2.2.2.2.1, h.2.2.2.2.2.2.1, h.2.2.2.2.2.2.2⟩

/-! ## Input arbitration (`src/systems/input.py`) -/

/-- The `InputHandler` class state: an optional pending direction and the
committed current direction. -/
structure InputHandler where
  pending_direction : Option Direction
  current_direction : Direction
deriving DecidableEq, Repr

/-- `InputHandler.handle_key_down(key)` for a direction key: `DIRECTION_KEYS`
maps the key to a direction, which unconditionally overwrites the pending
direction (no buffering).  The direction the key maps to is the argument. -/
def InputHandler.handle_key_down (st : InputHandler) (d : Direction) :
    InputHandler :=
  { st with pending_direction := some d }

/-- `InputHandler.apply_pending_direction()`: commit the pending direction
unless it is absent or a 180-degree reversal; always clear pending; return
the direction to use for this tick together with the updated state. -/
def InputHandler.apply_pending_direction (st : InputHandler) :
    Direction × InputHandler :=
  match st.pending_direction with
  | none => (st.current_direction, st)
  | some p =>
    if OPPOSITE_DIRECTIONS st.current_direction = p then
      (st.current_direction, { st with pending_direction := none })
    else
      (p, { pending_direction := none, current_direction := p })

/-- `InputHandler.direction_changed_on_tick()`: side-effect-free query — true
iff a pending direction exists, is not the reversal of the current one, and
differs from the current one. -/
def InputHandler.direction_changed_on_tick (st : InputHandler) : Bool :=
  match st.pending_direction with
  | none => false
  | some p =>
    if OPPOSITE_DIRECTIONS st.current_direction = p then false
    else decide (p ≠ st.current_direction)

/-- C4: any sequence of key presses before a commit leaves only the most
recent direction pending (last-write-wins) and does not touch the current
direction; `apply_pending_direction` returns the current direction unchanged
when nothing is pending, rejects a 180-degree reversal (clearing pending,
current unchanged), and otherwise commits the pending direction, clears it,
and returns it; in particular `current = Right`, `pending = Left` commits to
`Right`. -/
theorem C4_input_commit (st : InputHandler) (ds : List Direction)
    (d : Direction) :
    (((ds ++ [d]).foldl InputHandler.handle_key_down st).pending_direction =
        some d ∧
      ((ds ++ [d]).foldl InputHandler.handle_key_down st).current_direction =
        st.current_direction) ∧
    (st.pending_direction = none →
      st.apply_pending_direction = (st.current_direction, st)) ∧
    (∀ p, st.pending_direction = some p →
      OPPOSITE_DIRECTIONS st.current_direction = p →
      st.apply_pending_direction =
        (st.current_direction, { st with pending_direction := none })) ∧
    (∀ p, st.pending_direction = some p →
      OPPOSITE_DIRECTIONS st.current_direction ≠ p →
      st.apply_pending_direction = (p, InputHandler.mk none p)) ∧
    (InputHandler.mk (some Direction.left)
        Direction.right).apply_pending_direction =
      (Direction.right, InputHandler.mk none Direction.right) := by
  have hcur : ∀ (l : List Direction) (s : InputHandler),
      (l.foldl InputHandler.handle_key_down s).current_direction =
        s.current_direction := by
    intro l
    induction l with
    | nil => intro s; rfl
    | cons a t ih => intro s; simpa [InputHandler.handle_key_down] using ih _
  refine ⟨⟨?_, ?_⟩, ?_, ?_, ?_, by decide⟩
  · rw [List.foldl_append]
    rfl
  · rw [List.foldl_append]
    simpa [InputHandler.handle_key_down] using
      hcur ds st
  · intro h
    simp [InputHandler.apply_pending_direction, h]
  · intro p hp hop
    simp [InputHandler.apply_pending_direction, hp, hop]
  · intro p hp hop
    simp [InputHandler.apply_pending_direction, hp, hop]

/-- C4 witness: the theorem applied to the state with pending `Up` and
current `Right` (not a reversal): the commit returns `Up`. -/
theorem C4_witness :
    (InputHandler.mk (some Direction.up)
        Direction.right).apply_pending_direction =
      (Direction.up, InputHandler.mk none Direction.up) :=
  (C4_input_commit (InputHandler.mk (some Direction.up) Direction.right)
      [] Direction.left).2.2.2.1 Direction.up rfl (by decide)

/-- C9: `direction_changed_on_tick` mutates no state (it is a pure query of
the handler state) and returns true exactly when `apply_pending_direction`
run from the same state would return a direction different from the current
one. -/
theorem C9_would_change_mirrors_commit (st : InputHandler) :
    st.direction_changed_on_tick = true ↔
      st.apply_pending_direction.1 ≠ st.current_direction := by
  rcases st with ⟨p, c⟩
  rcases p with _ | d
  · simp [InputHandler.direction_changed_on_tick,
      InputHandler.apply_pending_direction]
  · cases d <;> cases c <;> decide

/-! ## Food (`src/game/food.py`) -/

/-- The grid cells enumerated by the spawn loops
`for x in range(GRID_WIDTH): for y in range(GRID_HEIGHT)` in row-major
order. -/
def grid_cells : List Pos :=
  (List.range 16).flatMap fun (x : Nat) => (List.range 14).map
    fun (y : Nat) => ((x : Int), (y : Int))

/-- The `Food` class state: position, binary animation frame and the
sub-interval animation accumulator. -/
structure Food where
  position : Pos
  animation_frame : Nat
  animation_timer : ℚ
deriving DecidableEq, Repr

/-- `Food.spawn(snake_segments, walls)`: collect the free cells (occupied =
segments plus walls, the Python `if walls:` guard being immaterial because an
absent or empty set contributes nothing); fail when none are free, otherwise
pick one through the injected random source (modelled as an arbitrary index
reduced modulo the number of free cells). -/
def Food.spawn (f : Food) (rng : Nat) (snake_segments : List Pos)
    (walls : Option (List Pos)) : Bool × Food :=
  let occupied := snake_segments ++ walls.getD []
  let valid_positions := grid_cells.filter fun pos => decide (pos ∉ occupied)
  if valid_positions.isEmpty then (false, f)
  else
    (true, { f with
      position := valid_positions.getD (rng % valid_positions.length) (0, 0) })

/-- `Food.update_animation(dt, paused)`: no-op when paused; otherwise add
`dt` to the timer and, when the timer reached the fixed interval, subtract
the interval once (an `if`, not a loop) and flip the binary frame. -/
def Food.update_animation (f : Food) (dt : ℚ) (paused : Bool) : Food :=
  if paused then f
  else
    let timer := f.animation_timer + dt
    if FOOD_ANIMATION_INTERVAL ≤ timer then
      { f with
          animation_timer := timer - FOOD_ANIMATION_INTERVAL,
          animation_frame := 1 - f.animation_frame }
    else
      { f with animation_timer := timer }

/-- Membership in the spawn enumeration: exactly the cells of
`[0,16) × [0,14)`. -/
theorem mem_grid_cells (p : Pos) :
    p ∈ grid_cells ↔ 0 ≤ p.1 ∧ p.1 < 16 ∧ 0 ≤ p.2 ∧ p.2 < 14 := by
  rcases p with ⟨x, y⟩
  constructor
  · intro hp
    rcases List.mem_flatMap.mp hp with ⟨a, ha, hmem⟩
    rcases List.mem_map.mp hmem with ⟨b, hb, heq⟩
    rw [Prod.mk.injEq] at heq
    obtain ⟨rfl, rfl⟩ := heq
    have h16 : (a : Int) < 16 := by exact_mod_cast List.mem_range.mp ha
    have h14 : (b : Int) < 14 := by exact_mod_cast List.mem_range.mp hb
    exact ⟨Int.natCast_nonneg a, h16, Int.natCast_nonneg b, h14⟩
  · rintro ⟨hx0, hx, hy0, hy⟩
    apply List.mem_flatMap.mpr
    refine ⟨x.toNat, List.mem_range.mpr (by omega), ?_⟩
    apply List.mem_map.mpr
    refine ⟨y.toNat, List.mem_range.mpr (by omega), ?_⟩
    rw [Int.toNat_of_nonneg hx0, Int.toNat_of_nonneg hy0]

/-- C6: `Food.spawn` returns false iff every cell of the 16×14 grid is
occupied by a supplied snake segment or wall, and then leaves the position
unchanged; when it returns true the new position is a grid cell occupied by
no supplied snake segment or wall — for every injected random source. -/
theorem C6_food_spawn (f : Food) (rng : Nat) (segs : List Pos)
    (walls : Option (List Pos)) :
    ((f.spawn rng segs walls).1 = false ↔
      ∀ p : Pos, 0 ≤ p.1 → p.1 < 16 → 0 ≤ p.2 → p.2 < 14 →
        (p ∈ segs ∨ p ∈ walls.getD [])) ∧
    ((f.spawn rng segs walls).1 = false → (f.spawn rng segs walls).2 = f) ∧
    ((f.spawn rng segs walls).1 = true →
      (f.spawn rng segs walls).2.position ∈ grid_cells ∧
      (f.spawn rng segs walls).2.position ∉ segs ∧
      (f.spawn rng segs walls).2.position ∉ walls.getD []) := by
  classical
  have hspawn : f.spawn rng segs walls =
      (if (grid_cells.filter fun pos =>
            decide (pos ∉ segs ++ walls.getD [])).isEmpty then (false, f)
       else
         (true, { f with
           position := (grid_cells.filter fun pos =>
              decide (pos ∉ segs ++ walls.getD [])).getD
                (rng % (grid_cells.filter fun pos =>
                  decide (pos ∉ segs ++ walls.getD [])).length) (0, 0) })) :=
    rfl
  have hempty : (grid_cells.filter fun pos =>
      decide (pos ∉ segs ++ walls.getD [])).isEmpty = true ↔
      ∀ p : Pos, 0 ≤ p.1 → p.1 < 16 → 0 ≤ p.2 → p.2 < 14 →
        (p ∈ segs ∨ p ∈ walls.getD []) := by
    rw [List.isEmpty_iff, List.filter_eq_nil_iff]
    constructor
    · intro h p h1 h2 h3 h4
      have hp := h p ((mem_grid_cells p).mpr ⟨h1, h2, h3, h4⟩)
      simp only [decide_eq_true_eq, not_not] at hp
      exact (List.mem_append.mp hp).imp id id
    · intro h p hp
      have hg := (mem_grid_cells p).mp hp
      simp only [decide_eq_true_eq, not_not]
      exact List.mem_append.mpr (h p hg.1 hg.2.1 hg.2.2.1 hg.2.2.2)
  by_cases hv : (grid_cells.filter fun pos =>
      decide (pos ∉ segs ++ walls.getD [])).isEmpty
  · refine ⟨?_, ?_, ?_⟩
    · rw [hspawn, if_pos hv]
      simpa using hempty.mp hv
    · intro _
      rw [hspawn, if_pos hv]
    · intro htrue
      rw [hspawn, if_pos hv] at htrue
      simp at htrue
  · have hne : (grid_cells.filter fun pos =>
        decide (pos ∉ segs ++ walls.getD [])) ≠ [] := by
      simpa [List.isEmpty_iff] using hv
    have hlen : 0 < (grid_cells.filter fun pos =>
        decide (pos ∉ segs ++ walls.getD [])).length :=
      List.length_pos.mpr hne
    have hidx : rng % (grid_cells.filter fun pos =>
        decide (pos ∉ segs ++ walls.getD [])).length <
        (grid_cells.filter fun pos =>
          decide (pos ∉ segs ++ walls.getD [])).length :=
      Nat.mod_lt _ hlen
    have hmem : (grid_cells.filter fun pos =>
        decide (pos ∉ segs ++ walls.getD [])).getD
          (rng % (grid_cells.filter fun pos =>
            decide (pos ∉ segs ++ walls.getD [])).length) (0, 0) ∈
        (grid_cells.filter fun pos =>
          decide (pos ∉ segs ++ walls.getD [])) := by
      rw [List.getD_eq_getElem _ _ hidx]
      exact List.getElem_mem hidx
    have hsplit := List.mem_filter.mp hmem
    have hnot : (grid_cells.filter fun pos =>
        decide (pos ∉ segs ++ walls.getD [])).getD
          (rng % (grid_cells.filter fun pos =>
            decide (pos ∉ segs ++ walls.getD [])).length) (0, 0) ∉
        segs ++ walls.getD [] := by
      simpa using hsplit.2
    refine ⟨?_, ?_, ?_⟩
    · rw [hspawn, if_neg hv]
      constructor
      · intro h
        simp at h
      · intro hall
        exact absurd (hempty.mpr hall) hv
    · intro hfalse
      rw [hspawn, if_neg hv] at hfalse
      simp at hfalse
    · intro _
      rw [hspawn, if_neg hv]
      refine ⟨hsplit.1, ?_, ?_⟩
      · exact fun hc => hnot (List.mem_append.mpr (Or.inl hc))
      · exact fun hc => hnot (List.mem_append.mpr (Or.inr hc))

/-- C6 witness: the theorem applied with segments `[(0,0)]`, walls `[(1,1)]`
and random index 5: the spawn succeeds and avoids the occupied cells. -/
theorem C6_witness :
    ((Food.mk (0, 0) 0 0).spawn 5 [(0, 0)]
        (some [(1, 1)])).2.position ∈ grid_cells ∧
    ((Food.mk (0, 0) 0 0).spawn 5 [(0, 0)]
        (some [(1, 1)])).2.position ∉ ([(0, 0)] : List Pos) ∧
    ((Food.mk (0, 0) 0 0).spawn 5 [(0, 0)]
        (some [(1, 1)])).2.position ∉
      (some [(1, 1)] : Option (List Pos)).getD [] :=
  (C6_food_spawn (Food.mk (0, 0) 0 0) 5 [(0, 0)] (some [(1, 1)])).2.2
    (by decide)

/-- C7 counterexample: from a zero accumulator, a single
`update_animation(0.6, paused=false)` call does NOT toggle the frame twice
with a 0.1-second remainder (the code tests the interval with an `if`, not a
loop): the frame ends at 1 (toggled once) and the timer at 0.35. -/
theorem C7_counterexample :
    ¬(((Food.mk (0, 0) 0 0).update_animation (3/5) false).animation_frame =
        0 ∧
      ((Food.mk (0, 0) 0 0).update_animation (3/5) false).animation_timer =
        1/10) := by
  have hx : (Food.mk (0, 0) 0 0).update_animation (3/5) false =
      Food.mk (0, 0) 1 (7/20) := by
    norm_num [Food.update_animation, FOOD_ANIMATION_INTERVAL]
  intro h
  rw [hx] at h
  norm_num at h

/-- C7 (amended): when paused, `update_animation(dt, paused)` changes
nothing; otherwise it adds `dt` to the accumulator and toggles the binary
frame at most once per call — exactly once when the accumulated timer
reaches the 0.25-second interval, subtracting one interval and carrying the
remainder forward rather than resetting to zero; a single call with
`dt = 0.6` from a zero accumulator therefore toggles once and leaves a
0.35-second accumulator. -/
theorem C7_update_animation_single_toggle (f : Food) (dt : ℚ) :
    (f.update_animation dt true = f) ∧
    (FOOD_ANIMATION_INTERVAL ≤ f.animation_timer + dt →
      f.update_animation dt false =
        Food.mk f.position (1 - f.animation_frame)
          (f.animation_timer + dt - FOOD_ANIMATION_INTERVAL)) ∧
    (f.animation_timer + dt < FOOD_ANIMATION_INTERVAL →
      f.update_animation dt false =
        Food.mk f.position f.animation_frame (f.animation_timer + dt)) := by
  refine ⟨rfl, ?_, ?_⟩
  · intro h
    simp [Food.update_animation, h]
  · intro h
    simp [Food.update_animation, not_le.mpr h]

/-- C7 witness: the amended theorem applied at `dt = 0.6` from a zero
accumulator. -/
theorem C7_witness :
    (Food.mk (0, 0) 0 0).update_animation (3/5) false =
      Food.mk (0, 0) (1 - 0) (0 + 3/5 - FOOD_ANIMATION_INTERVAL) :=
  (C7_update_animation_single_toggle (Food.mk (0, 0) 0 0) (3/5)).2.1
    (by norm_num [FOOD_ANIMATION_INTERVAL])

/-! ## High scores (`src/systems/saves.py`) -/

/-- `NAME_CHARSET = "ABCDEFGHIJKLMNOPQRSTUVWXYZ0123456789"`
(`src/constants.py`). -/
def NAME_CHARSET : List Char := "ABCDEFGHIJKLMNOPQRSTUVWXYZ0123456789".toList

/-- `_validate_name(name)` (`src/systems/saves.py`): a name whose length is
not 3 collapses to `"AAA"`; otherwise the name is uppercased (`str.upper`,
modelled by `Char.toUpper` — the code only ever meets ASCII) and every
character outside `NAME_CHARSET` is replaced with `'A'`. -/
def validate_name (name : String) : String :=
  if name.length ≠ 3 then "AAA"
  else
    let sanitized := name.data.map fun c =>
      let u := c.toUpper
      if u ∈ NAME_CHARSET then u else 'A'
    if 3 ≤ sanitized.length then String.mk (sanitized.take 3) else "AAA"

/-- A `HighScoreEntry`: validated name, clamped score, timestamp.  The
ISO-8601 UTC timestamp strings of the code compare lexicographically, which
is chronological order; they are modelled by a natural number. -/
structure HighScoreEntry where
  name : String
  score : Int
  ts : Nat
deriving DecidableEq, Repr

/-- `HighScoreEntry.__init__(name, score, ts=None)`: sanitize the name, clamp
the score with `max(0, int(score))`, default the timestamp to the current
time `now`. -/
def HighScoreEntry.make (name : String) (score : Int) (ts : Option Nat)
    (now : Nat) : HighScoreEntry :=
  { name := validate_name name, score := max 0 score, ts := ts.getD now }

/-- `HighScoreEntry.from_dict(data)`: missing fields default to `"AAA"`, `0`
and the current time. -/
def HighScoreEntry.from_dict (name : Option String) (score : Option Int)
    (ts : Option Nat) (now : Nat) : HighScoreEntry :=
  HighScoreEntry.make (name.getD "AAA") (score.getD 0) ts now

/-- The sort key order of `entries.sort(key=lambda e: (-e.score, e.ts))`:
score descending, then timestamp ascending. -/
def entry_key_le (a b : HighScoreEntry) : Prop :=
  b.score < a.score ∨ (a.score = b.score ∧ a.ts ≤ b.ts)

instance : DecidableRel entry_key_le := fun a b => by
  unfold entry_key_le
  infer_instance

instance : IsTotal HighScoreEntry entry_key_le := by
  constructor
  intro a b
  unfold entry_key_le
  rcases lt_trichotomy a.score b.score with h | h | h
  · exact Or.inr (Or.inl h)
  · rcases Nat.le_total a.ts b.ts with ht | ht
    · exact Or.inl (Or.inr ⟨h, ht⟩)
    · exact Or.inr (Or.inr ⟨h.symm, ht⟩)
  · exact Or.inl (Or.inl h)

instance : IsTrans HighScoreEntry entry_key_le := by
  constructor
  intro a b c hab hbc
  unfold entry_key_le at *
  rcases hab with h1 | ⟨h1, h1t⟩ <;> rcases hbc with h2 | ⟨h2, h2t⟩
  · exact Or.inl (h2.trans h1)
  · exact Or.inl (h2 ▸ h1)
  · exact Or.inl (h1 ▸ h2)
  · exact Or.inr ⟨h1.trans h2, h1t.trans h2t⟩

/-- `HighScores.qualifies(mode, score)` for one mode's entry list: true when
the list holds fewer than `MAX_HIGHSCORES` entries, otherwise true when the
score strictly exceeds the last (lowest-ranked) entry's score.  (With 10 or
more entries the list is non-empty, so the `none` branch is unreachable.) -/
def qualifies (entries : List HighScoreEntry) (score : Int) : Bool :=
  if entries.length < MAX_HIGHSCORES then true
  else
    match entries.getLast? with
    | some e => decide (e.score < score)
    | none => true

/-- `HighScores.add_score(mode, name, score)` on one mode's entry list:
reject when the score does not qualify; otherwise build the entry (with the
current time `now`), append it, sort by `(-score, ts)` (Python's stable sort
is modelled by an insertion sort for the same key order) and truncate to
`MAX_HIGHSCORES`. -/
def add_score (entries : List HighScoreEntry) (name : String) (score : Int)
    (now : Nat) : Bool × List HighScoreEntry :=
  if !(qualifies entries score) then (false, entries)
  else
    let entry := HighScoreEntry.make name score none now
    let sorted := List.insertionSort entry_key_le (entries ++ [entry])
    (true, sorted.take MAX_HIGHSCORES)

/-- C8 counterexample: `add_score` on an empty table with name `"abc"`
stores the name `"ABC"` — the code uppercases before validating, it does not
replace the lowercase (not in `A–Z0–9`) characters with `'A'` as the claim
states (which would give `"AAA"`). -/
theorem C8_counterexample :
    (add_score [] "abc" 5 0).2.map HighScoreEntry.name = ["ABC"] ∧
      "ABC" ≠ "AAA" := by
  constructor
  · rfl
  · decide

/-- C8 (amended): `add_score(mode, name, score)` returns false and leaves the
table unchanged iff the score does not qualify — qualifying means fewer than
10 entries or a score strictly greater than the last (lowest-ranked) entry's
score, so a score merely equal to the 10th does not qualify when the table is
full.  When it qualifies, it inserts an entry whose name is the sanitized
input — exactly 3 characters; the input is uppercased first and any character
whose uppercased form falls outside A–Z0–9 is replaced with 'A'; an input
whose length is not 3 collapses to "AAA" — re-sorts by score descending with
earlier timestamp winning ties, truncates to at most 10 entries, and returns
true. -/
theorem C8_add_score (entries : List HighScoreEntry) (name : String)
    (score : Int) (now : Nat) :
    (qualifies entries score = true ↔
      entries.length < MAX_HIGHSCORES ∨
        ∃ e, entries.getLast? = some e ∧ e.score < score) ∧
    (qualifies entries score = false →
      add_score entries name score now = (false, entries)) ∧
    (qualifies entries score = true →
      (add_score entries name score now).1 = true ∧
      (add_score entries name score now).2.length ≤ MAX_HIGHSCORES ∧
      (add_score entries name score now).2.Sorted entry_key_le ∧
      (∃ rest, ((add_score entries name score now).2 ++ rest).Perm
        (entries ++ [HighScoreEntry.make name score none now]))) ∧
    (∀ s : String, (validate_name s).length = 3) := by
  refine ⟨?_, ?_, ?_, ?_⟩
  · unfold qualifies
    by_cases hlen : entries.length < MAX_HIGHSCORES
    · simp [hlen]
    · have hne : entries ≠ [] := by
        intro h
        subst h
        simp [MAX_HIGHSCORES] at hlen
      rcases hg : entries.getLast? with _ | e
      · exact absurd (List.getLast?_eq_none_iff.mp hg) hne
      · simp [hlen, hg]
  · intro h
    simp [add_score, h]
  · intro h
    have hrw : add_score entries name score now =
        (true, (List.insertionSort entry_key_le
          (entries ++ [HighScoreEntry.make name score none now])).take
            MAX_HIGHSCORES) := by
      simp [add_score, h]
    rw [hrw]
    refine ⟨rfl, ?_, ?_, ?_⟩
    · simp [List.length_take]
    · exact List.Pairwise.sublist (List.take_sublist _ _)
        (List.sorted_insertionSort entry_key_le _)
    · refine ⟨(List.insertionSort entry_key_le
        (entries ++ [HighScoreEntry.make name score none now])).drop
          MAX_HIGHSCORES, ?_⟩
      rw [List.take_append_drop]
      exact List.perm_insertionSort entry_key_le _
  · intro s
    unfold validate_name
    by_cases hlen : s.length ≠ 3
    · rw [if_pos hlen]
      rfl
    · rw [if_neg hlen]
      have key : ∀ (L : List Char), L.length = 3 →
          (if 3 ≤ L.length then String.mk (L.take 3) else "AAA").length = 3 := by
        intro L hL
        rw [if_pos (by omega)]
        show (L.take 3).length = 3
        rw [List.length_take]
        omega
      apply key
      rw [List.length_map]
      exact not_not.mp hlen

/-- C8 witness: the amended theorem applied on the empty table with the name
`"xy!"` and score `-2` (which qualifies): the add succeeds, the result is a
sorted table of at most 10 entries, and sanitized names have 3 characters. -/
theorem C8_witness :
    (add_score [] "xy!" (-2) 7).1 = true ∧
      (add_score [] "xy!" (-2) 7).2.length ≤ MAX_HIGHSCORES ∧
      (add_score [] "xy!" (-2) 7).2.Sorted entry_key_le ∧
      (∃ rest, ((add_score [] "xy!" (-2) 7).2 ++ rest).Perm
        ([] ++ [HighScoreEntry.make "xy!" (-2) none 7])) :=
  (C8_add_score [] "xy!" (-2) 7).2.2.1 rfl

/-- C10: every entry built through the constructor stores `max(0, score)`,
hence a non-negative score — a negative input yields 0 rather than an error —
and the same holds for entries built through `from_dict` (which routes
through the constructor with a default of 0). -/
theorem C10_entry_score_clamped (name : String) (score : Int)
    (ts : Option Nat) (now : Nat) (oname : Option String)
    (oscore : Option Int) (ots : Option Nat) :
    (HighScoreEntry.make name score ts now).score = max 0 score ∧
    0 ≤ (HighScoreEntry.make name score ts now).score ∧
    0 ≤ (HighScoreEntry.from_dict oname oscore ots now).score ∧
    (HighScoreEntry.make "BOB" (-5) none 0).score = 0 := by
  refine ⟨rfl, le_max_left 0 score, ?_, by decide⟩
  exact le_max_left 0 (oscore.getD 0)

/-! ## Play scene orchestration (`src/scenes/play.py`, `src/content/modes.py`,
`src/game/scoring.py`) -/

/-- `Food.is_at(pos)` (`src/game/food.py`). -/
def Food.is_at (f : Food) (pos : Pos) : Bool :=
  decide (f.position = pos)

/-- `GameMode` enum (`src/constants.py`). -/
inductive GameMode where
  | classic
  | boxed
  | maze
  | time_attack
deriving DecidableEq, Repr

/-- `ModeConfig` record (`src/content/modes.py`). -/
structure ModeConfig where
  name : String
  wrap_around : Bool
  border_lethal : Bool
  has_walls : Bool
  time_limit : ℚ
deriving DecidableEq, Repr

/-- `MODE_CONFIGS` / `get_mode_config` (`src/content/modes.py`). -/
def get_mode_config : GameMode → ModeConfig
  | GameMode.classic => ⟨"Classic", true, false, false, 0⟩
  | GameMode.boxed => ⟨"Boxed", false, true, false, 0⟩
  | GameMode.maze => ⟨"Maze", false, true, true, 0⟩
  | GameMode.time_attack => ⟨"Time Attack", true, false, false,
      TIME_ATTACK_DURATION⟩

/-- The `PlayScene` state relevant to the simulation: mode configuration,
walls, input handler, timing, snake, food, score (`Scoring.score`), the end
reason, and the injected random source for food spawns. -/
structure PlayScene where
  config : ModeConfig
  walls : List Pos
  input_handler : InputHandler
  timing : TimingSystem
  snake : Snake
  food : Food
  score : Nat
  end_reason : Option EndReason
  rng : Nat
deriving DecidableEq, Repr

/-- `PlayScene._end_game(reason)`: record the end reason.  The death/time-up
sound and the transition to the results scene are external effects. -/
def PlayScene.end_game (st : PlayScene) (reason : EndReason) : PlayScene :=
  { st with end_reason := some reason }

/-- `PlayScene._process_tick()`: commit the pending direction (the turn sound
fired from `direction_changed_on_tick` is an external effect), move the
snake, resolve collisions, and handle food consumption (growth, +10 score,
speed increase, respawn over the post-growth occupied set; a failed respawn
ends the round with Victory). -/
def PlayScene.process_tick (st : PlayScene) : PlayScene :=
  let applied := st.input_handler.apply_pending_direction
  let snake1 : Snake := { st.snake with direction := applied.1 }
  let moved := snake1.move st.config.wrap_around
  let st1 := { st with input_handler := applied.2, snake := moved.2 }
  match check_collisions moved.1 moved.2.body st.config.border_lethal
      (if st.config.has_walls then some st.walls else none) with
  | some r => st1.end_game r
  | none =>
    if st1.food.is_at moved.1 then
      let snake2 := st1.snake.grow
      let spawned := st1.food.spawn st1.rng snake2.segments (some st1.walls)
      let st2 := { st1 with
        snake := snake2,
        score := st1.score + SCORE_PER_FOOD,
        timing := st1.timing.increase_speed,
        food := spawned.2 }
      if spawned.1 then st2 else st2.end_game EndReason.victory
    else st1

/-- The `for _ in range(ticks)` loop of `PlayScene.update`: process each tick
and stop right after a tick that set an end reason.  (The check sits after
the tick, so the first tick of a call runs even from an already-ended
state.) -/
def PlayScene.process_ticks : Nat → PlayScene → PlayScene
  | 0, st => st
  | n + 1, st =>
    let st1 := st.process_tick
    if st1.end_reason.isSome then st1 else PlayScene.process_ticks n st1

/-- The tail of `PlayScene.update`: ask the timing system for this frame's
tick count and process that many ticks. -/
def PlayScene.run_ticks (st : PlayScene) (dt : ℚ) : PlayScene :=
  let r := st.timing.update dt
  PlayScene.process_ticks r.1 { st with timing := r.2 }

/-- `PlayScene.update(dt)`: return at once when paused; update the food
animation; in timed modes advance the countdown (ending with TimeUp on
expiry) and award the per-second survival point; then run the fixed-step
movement ticks. -/
def PlayScene.update (st : PlayScene) (dt : ℚ) : PlayScene :=
  if st.timing.paused then st
  else
    let stA := { st with food := st.food.update_animation dt st.timing.paused }
    if 0 < stA.config.time_limit then
      let ta := stA.timing.update_time_attack dt
      if ta.1 then PlayScene.end_game { stA with timing := ta.2 }
        EndReason.time_up
      else
        let sc := ta.2.check_second_scored
        let stB := { stA with
          timing := sc.2,
          score := if sc.1 then stA.score + TIME_ATTACK_SCORE_PER_SECOND
            else stA.score }
        stB.run_ticks dt
    else stA.run_ticks dt

/-- A concrete Classic-mode state whose round has already ended
(`end_reason = WallCollision`) and is not paused — after `_end_game` the code
leaves `paused` untouched, so this is the state a further `update` call would
see. -/
def ended_state : PlayScene :=
  { config := get_mode_config GameMode.classic
    walls := []
    input_handler := InputHandler.mk none Direction.right
    timing := TimingSystem.mk 8 0 0 0 false 0
    snake := Snake.mk [(3, 7), (2, 7), (1, 7)] Direction.right false
    food := Food.mk (10, 10) 0 0
    score := 0
    end_reason := some EndReason.wall_collision
    rng := 0 }

/-- C5 counterexample: `PlayScene.update` never tests `end_reason` before
processing, so a further `update(dt)` call on an ended (unpaused) round is
not a no-op: from `ended_state`, one frame worth of `dt = 1/8` second moves
the snake — its segments change. -/
theorem C5_counterexample :
    (ended_state.update (1/8)).snake.segments ≠
      ended_state.snake.segments := by
  have hloop1 : tick_while_loop (1/8 : ℚ) (1/8) = (1, 0) := by
    rw [tick_while_loop.eq_def]
    rw [dif_pos (show (0:ℚ) < 1/8 ∧ (1/8:ℚ) ≤ 1/8 by norm_num)]
    rw [show (1/8 - 1/8 : ℚ) = 0 by norm_num]
    rw [tick_while_loop.eq_def]
    rw [dif_neg (show ¬((0:ℚ) < 1/8 ∧ (1/8:ℚ) ≤ 0) by norm_num)]
  have hupd : ended_state.update (1/8) = PlayScene.process_ticks 1
      { ended_state with
          food := Food.mk (10, 10) 0 (1/8),
          timing := TimingSystem.mk 8 0 (1/8) 0 false 0 } := by
    simp only [PlayScene.update, PlayScene.run_ticks, TimingSystem.update,
      TimingSystem.get_tick_interval, Food.update_animation, ended_state,
      get_mode_config, FOOD_ANIMATION_INTERVAL]
    norm_num [hloop1]
  rw [hupd]
  decide

/-- C5 (amended): while paused, `update(dt)` is a no-op; and within a single
`update` call, the instant a tick sets an end reason the remaining ticks of
that frame are skipped.  But an `update` call made on an already-ended round
is not inert (see the counterexample): the code never re-checks `end_reason`
on entry, and in the full application it is the scene transition performed by
`_end_game`, not this guard, that stops further updates. -/
theorem C5_pause_and_end_stop_processing (st : PlayScene) (n : Nat) (dt : ℚ) :
    (st.timing.paused = true → st.update dt = st) ∧
    (st.process_tick.end_reason.isSome = true →
      PlayScene.process_ticks (n + 1) st = st.process_tick) := by
  constructor
  · intro hp
    simp [PlayScene.update, hp]
  · intro hs
    simp [PlayScene.process_ticks, hs]

/-- A concrete running Boxed-mode state one step from the lethal border:
its next tick ends the round. -/
def boxed_edge_state : PlayScene :=
  { config := get_mode_config GameMode.boxed
    walls := []
    input_handler := InputHandler.mk none Direction.right
    timing := TimingSystem.mk 8 0 0 0 false 0
    snake := Snake.mk [(15, 7), (14, 7), (13, 7)] Direction.right false
    food := Food.mk (0, 0) 0 0
    score := 0
    end_reason := none
    rng := 0 }

/-- C5 witness: the amended theorem applied to `boxed_edge_state`, whose
first tick hits the border: a 2-tick frame stops after that first tick. -/
theorem C5_witness :
    PlayScene.process_ticks 2 boxed_edge_state =
      boxed_edge_state.process_tick :=
  (C5_pause_and_end_stop_processing boxed_edge_state 1 0).2 (by decide)
